import Mathlib

/-!
Verification development for the collaborative music-streaming server
(`src/server.py`).  The server keeps two in-memory maps — `rooms` (room name
to `RoomState`) and `user_sessions` (connection id to metadata) — and mutates
them from Socket.IO event handlers (`connect`, `disconnect`, `join_room`,
`create_room`, `leave_room`, `control`, `sync_request`, `request_host`,
`accept_host_transfer`, `reject_host_transfer`).

The embedding below is a direct functional translation of those handlers:

* Python `dict` becomes an association list (`List (String × _)`) with
  insertion-order-preserving put/update/delete, matching dict semantics.
* Python `set` of session ids becomes a duplicate-free `List String`;
  `set.add` is modelled as cons-if-absent and `next(iter(s))` as `head`
  (Python set iteration order is arbitrary; the spec allows any choice).
* `time.time()` is passed in as an explicit `now : Rat` parameter, and all
  float fields (`time`, `last_update`) are modelled as `Rat`; the code only
  compares, clamps with `max`, and stores these values, so exact rational
  arithmetic is a faithful model.
* `sio.emit(...)` calls are collected into an explicit list of `Emit`
  records carrying the delivery target, event name and JSON payload.
* Logging-only session metadata (`user_agent`, `ip`) is omitted; it is never
  read by any handler.
-/

namespace MusicServer

/-- Python `str.strip()` on the underlying character list: drop leading and
trailing whitespace. -/
def stripChars (l : List Char) : List Char :=
  ((l.dropWhile Char.isWhitespace).reverse.dropWhile Char.isWhitespace).reverse

/-- Python `s.strip()`. -/
def pyStrip (s : String) : String := String.mk (stripChars s.data)

/-- Python slicing `s[:n]`. -/
def strTake (n : Nat) (s : String) : String := String.mk (s.data.take n)

/-- Python `if len(s) > n: s = s[:n]` — the truncation length cap. -/
def capLen (n : Nat) (s : String) : String :=
  if n < s.data.length then strTake n s else s

/-- JSON-like values appearing in emitted payloads. -/
inductive Value where
  | str : String → Value
  | num : Rat → Value
  | bool : Bool → Value
  | null : Value
  | arr : List Value → Value
  | obj : List (String × Value) → Value

/-- Optional string rendered as JSON (Python `None` → `null`). -/
def optStr : Option String → Value
  | none => Value.null
  | some s => Value.str s

/-- Delivery target of a `sio.emit` call: a single session id (`to=sid`),
a Socket.IO room (`room=name`), a room excluding one sid (`skip_sid`), or
every connected client. -/
inductive Target where
  | toSid : String → Target
  | toRoom : String → Target
  | toRoomSkip : String → String → Target
  | all : Target

/-- One `sio.emit(event, payload, ...)` call. -/
structure Emit where
  target : Target
  event : String
  payload : Value

/-- Per-connection metadata stored in `user_sessions` (the logging-only
`user_agent` and `ip` fields are omitted; no handler reads them). -/
structure Session where
  username : Option String
  connected_at : Rat
  deriving DecidableEq

/-- The `RoomState` dataclass. -/
structure RoomState where
  song : Option String
  state : String
  time : Rat
  last_update : Rat
  users : List String
  host_sid : Option String
  host_username : Option String
  password : Option String
  is_locked : Bool
  deriving DecidableEq

/-- `RoomState(password=...)` construction including `__post_init__`:
fresh empty user set, `last_update = time.time()`, and
`is_locked = password is not None and len(password.strip()) > 0`. -/
def RoomState.init (password : Option String) (now : Rat) : RoomState :=
  { song := none
    state := "stopped"
    time := 0
    last_update := now
    users := []
    host_sid := none
    host_username := none
    password := password
    is_locked := match password with
      | none => false
      | some p => !(pyStrip p).data.isEmpty }

/-- The whole server state: the `rooms` dict and the `user_sessions` dict. -/
structure ServerState where
  rooms : List (String × RoomState)
  sessions : List (String × Session)
  deriving DecidableEq

/-- Initial server state: both dicts empty. -/
def initState : ServerState := { rooms := [], sessions := [] }

/-- Python `d.get(key)` on an insertion-ordered dict. -/
def lookupA {α : Type} : List (String × α) → String → Option α
  | [], _ => none
  | q :: rest, key => if q.1 = key then some q.2 else lookupA rest key

/-- Python `d[key] = v`: replace in place if the key exists, else append. -/
def putA {α : Type} : List (String × α) → String → α → List (String × α)
  | [], key, v => [(key, v)]
  | q :: rest, key, v =>
      if q.1 = key then (q.1, v) :: rest else q :: putA rest key v

/-- In-place mutation of the value stored at `key` (Python mutates the
`RoomState` object held in the dict). -/
def updA {α : Type} (l : List (String × α)) (key : String) (f : α → α) :
    List (String × α) :=
  l.map (fun p => if p.1 = key then (p.1, f p.2) else p)

/-- Python `del d[key]`. -/
def delA {α : Type} (l : List (String × α)) (key : String) : List (String × α) :=
  l.filter (fun p => p.1 ≠ key)

/-- Python `set.add`: the user set modelled as a duplicate-free list. -/
def addUser (sid : String) (users : List String) : List String :=
  if sid ∈ users then users else sid :: users

/-- Python `user_sessions.get(sid, {}).get("username", dflt)`. -/
def userLabel (sessions : List (String × Session)) (sid : String)
    (dflt : String) : String :=
  match lookupA sessions sid with
  | none => dflt
  | some s => s.username.getD dflt

/-- Python `if sid in user_sessions: user_sessions[sid]["username"] = name`. -/
def setUsername (sessions : List (String × Session)) (sid : String)
    (name : String) : List (String × Session) :=
  sessions.map (fun p =>
    if p.1 = sid then (p.1, { p.2 with username := some name }) else p)

/-- One entry of the `active_rooms` summary built by
`broadcast_rooms_update` (and, with identical fields, by the `/rooms`
HTTP endpoint): name, user count, song, state, host username, last update
and the lock flags.  It never carries `password` or the member ids. -/
def room_summary (name : String) (rs : RoomState) : List (String × Value) :=
  [("name", Value.str name),
   ("user_count", Value.num (rs.users.length : Rat)),
   ("song", optStr rs.song),
   ("state", Value.str rs.state),
   ("host_username", optStr rs.host_username),
   ("last_update", Value.num rs.last_update),
   ("is_locked", Value.bool rs.is_locked),
   ("has_password", Value.bool rs.is_locked)]

/-- The `active_rooms` list: rooms with a non-empty user set only. -/
def active_rooms (rooms : List (String × RoomState)) : List Value :=
  (rooms.filter (fun p => !p.2.users.isEmpty)).map
    (fun p => Value.obj (room_summary p.1 p.2))

/-- The `rooms_update` broadcast to every connected client. -/
def broadcast_rooms_update (rooms : List (String × RoomState)) : Emit :=
  { target := Target.all
    event := "rooms_update"
    payload := Value.arr (active_rooms rooms) }

/-- The `room_data` payload of `room_state` / `room_created`:
`asdict(room_state)` in dataclass field order, then `name`, the member list,
`user_count`, `is_host` and `host_username` are set, and `password` is
popped before sending. -/
def room_data (name : String) (rs : RoomState) (isHost : Bool) :
    List (String × Value) :=
  [("song", optStr rs.song),
   ("state", Value.str rs.state),
   ("time", Value.num rs.time),
   ("last_update", Value.num rs.last_update),
   ("users", Value.arr (rs.users.map Value.str)),
   ("host_sid", optStr rs.host_sid),
   ("host_username", optStr rs.host_username),
   ("is_locked", Value.bool rs.is_locked),
   ("name", Value.str name),
   ("user_count", Value.num (rs.users.length : Rat)),
   ("is_host", Value.bool isHost)]

/-- A generic `error` event sent to one session. -/
def errTo (sid : String) (msg : String) : Emit :=
  { target := Target.toSid sid
    event := "error"
    payload := Value.obj [("message", Value.str msg)] }

/-- The `connect` handler: record the session. -/
def connect (st : ServerState) (sid : String) (now : Rat) :
    ServerState × List Emit :=
  ({ st with
      sessions := putA st.sessions sid { username := none, connected_at := now } },
   [])

/-- The `disconnect` handler: drop the session, remove `sid` from every
room's user set, notify each affected room, delete rooms that became empty,
and broadcast the rooms summary if anything changed.  Note: unlike
`leave_room`, no host reassignment happens here. -/
def disconnect (st : ServerState) (sid : String) (now : Rat) :
    ServerState × List Emit :=
  let sessions' := delA st.sessions sid
  let touched := st.rooms.filter (fun p => sid ∈ p.2.users)
  let rooms' := st.rooms.filterMap (fun p =>
    if sid ∈ p.2.users then
      let rs := { p.2 with users := p.2.users.erase sid, last_update := now }
      if rs.users.isEmpty then none else some (p.1, rs)
    else some p)
  let perRoom := touched.flatMap (fun p =>
    [{ target := Target.toRoom p.1
       event := "user_left"
       payload := Value.obj
         [("username",
           Value.str (userLabel sessions' sid ("User_" ++ strTake 8 sid)))] },
     { target := Target.toRoom p.1
       event := "user_count_update"
       payload := Value.obj
         [("count", Value.num ((p.2.users.erase sid).length : Rat))] }])
  let emits := if touched.isEmpty then perRoom
    else perRoom ++ [broadcast_rooms_update rooms']
  ({ rooms := rooms', sessions := sessions' }, emits)

/-- Fields of a `join_room` / `create_room` event. -/
structure JoinData where
  username : Option String
  room : Option String
  password : Option String
  deriving DecidableEq

/-- `data.get("username", "anonymous").strip() or "anonymous"` followed by
the 50-character cap. -/
def eff_username (u : Option String) : String :=
  let s := pyStrip (u.getD "anonymous")
  capLen 50 (if s = "" then "anonymous" else s)

/-- `data.get("room", dflt).strip() or dflt` followed by the 50-character
cap; `dflt` is `"default"` for `join_room` and `"new_room"` for
`create_room`. -/
def eff_room (dflt : String) (r : Option String) : String :=
  let s := pyStrip (r.getD dflt)
  capLen 50 (if s = "" then dflt else s)

/-- The `join_room` handler.  The supplied password is stripped but — unlike
in `create_room` — never truncated. -/
def join_room (st : ServerState) (sid : String) (d : JoinData) (now : Rat) :
    ServerState × List Emit :=
  let username := eff_username d.username
  let room := eff_room "default" d.room
  let password := pyStrip (d.password.getD "")
  match lookupA st.rooms room with
  | none =>
      (st, [{ target := Target.toSid sid
              event := "join_error"
              payload := Value.obj
                [("message", Value.str "Room not found"),
                 ("code", Value.str "room_not_found")] }])
  | some rs =>
      if rs.is_locked ∧ rs.password ≠ some password then
        (st, [{ target := Target.toSid sid
                event := "join_error"
                payload := Value.obj
                  [("message", Value.str "Invalid password"),
                   ("code", Value.str "invalid_password")] }])
      else
        let sessions' := setUsername st.sessions sid username
        let rs1 := { rs with users := addUser sid rs.users, last_update := now }
        let rs2 := if rs1.host_sid = none then
            { rs1 with host_sid := some sid, host_username := some username }
          else rs1
        let rooms' := updA st.rooms room (fun _ => rs2)
        ({ rooms := rooms', sessions := sessions' },
         [{ target := Target.toSid sid
            event := "room_state"
            payload := Value.obj (room_data room rs2 (decide (rs2.host_sid = some sid))) },
          { target := Target.toRoomSkip room sid
            event := "user_joined"
            payload := Value.obj
              [("username", Value.str username),
               ("user_count", Value.num (rs2.users.length : Rat)),
               ("host_username", optStr rs2.host_username)] },
          { target := Target.toRoom room
            event := "user_count_update"
            payload := Value.obj
              [("count", Value.num (rs2.users.length : Rat))] },
          broadcast_rooms_update rooms'])

/-- The `create_room` handler.  The password is stripped and capped at 100
characters before being stored (an empty password means a public room). -/
def create_room (st : ServerState) (sid : String) (d : JoinData) (now : Rat) :
    ServerState × List Emit :=
  let username := eff_username d.username
  let room := eff_room "new_room" d.room
  let password := capLen 100 (pyStrip (d.password.getD ""))
  match lookupA st.rooms room with
  | some _ =>
      (st, [{ target := Target.toSid sid
              event := "create_error"
              payload := Value.obj
                [("message", Value.str "Room already exists"),
                 ("code", Value.str "room_exists")] }])
  | none =>
      let rs0 := RoomState.init (if password = "" then none else some password) now
      let sessions' := setUsername st.sessions sid username
      let rs1 := { rs0 with host_sid := some sid, host_username := some username }
      let rs2 := { rs1 with users := addUser sid rs1.users, last_update := now }
      let rooms' := putA st.rooms room rs2
      ({ rooms := rooms', sessions := sessions' },
       [{ target := Target.toSid sid
          event := "room_created"
          payload := Value.obj (room_data room rs2 true) },
        broadcast_rooms_update rooms'])

/-- The `leave_room` handler: remove the member, reassign the host to an
arbitrary remaining member (`next(iter(users))`, here the list head) when
the host left, delete the room if it became empty. -/
def leave_room (st : ServerState) (sid : String) (roomOpt : Option String)
    (now : Rat) : ServerState × List Emit :=
  match roomOpt with
  | none => (st, [])
  | some room =>
    if room = "" then (st, []) else
    match lookupA st.rooms room with
    | none => (st, [])
    | some rs =>
      let username := userLabel st.sessions sid ("User_" ++ strTake 8 sid)
      if sid ∈ rs.users then
        let users' := rs.users.erase sid
        let rs1 := { rs with users := users', last_update := now }
        let hostStep : RoomState × List Emit :=
          if rs.host_sid = some sid then
            match users' with
            | newHost :: _ =>
                let newName := userLabel st.sessions newHost "Unknown"
                ({ rs1 with host_sid := some newHost, host_username := some newName },
                 [{ target := Target.toRoom room
                    event := "host_changed"
                    payload := Value.obj
                      [("old_host", Value.str username),
                       ("new_host", Value.str newName),
                       ("new_host_sid", Value.str newHost)] }])
            | [] => ({ rs1 with host_sid := none, host_username := none }, [])
          else (rs1, [])
        let rs2 := hostStep.1
        let rooms' := if rs2.users.isEmpty then delA st.rooms room
          else updA st.rooms room (fun _ => rs2)
        ({ rooms := rooms', sessions := st.sessions },
         hostStep.2 ++
         [{ target := Target.toRoom room
            event := "user_left"
            payload := Value.obj
              [("username", Value.str username),
               ("user_count", Value.num (rs2.users.length : Rat)),
               ("host_username", optStr rs2.host_username)] },
          { target := Target.toRoom room
            event := "user_count_update"
            payload := Value.obj
              [("count", Value.num (rs2.users.length : Rat))] },
          broadcast_rooms_update rooms'])
      else (st, [])

/-- Fields of a `control` event. -/
structure ControlData where
  room : Option String
  action : Option String
  song : Option String
  time : Option Rat
  deriving DecidableEq

/-- `max(0.0, float(data.get("time", 0.0)))` with `ValueError`/`TypeError`
clamped to `0.0`; `none` stands for a missing or unparseable value. -/
def time_value (t : Option Rat) : Rat := max 0 (t.getD 0)

/-- The action dispatch chain of the `control` handler, applied to the
room state `rs1` that already carries the refreshed `last_update`: each
recognised action is a total update of `(song, state, time)`, an unknown
action or an invalid `load` song is an error.  `tv` is the sanitised time
and `songOpt` the raw `song` field of the event. -/
def apply_action (songs : List String) (action : String)
    (songOpt : Option String) (tv : Rat) (rs1 : RoomState) :
    Except String RoomState :=
  if action = "load" then
    if songOpt.getD "" ≠ "" ∧ songOpt.getD "" ∈ songs then
      Except.ok
        { rs1 with song := some (songOpt.getD ""), time := tv, state := "stopped" }
    else Except.error "Invalid song"
  else if action = "play" then
    Except.ok
      { (match songOpt with
         | some song =>
             if song ≠ "" ∧ song ∈ songs then { rs1 with song := some song }
             else rs1
         | none => rs1) with
        state := "playing", time := tv }
  else if action = "pause" then
    Except.ok { rs1 with state := "paused", time := tv }
  else if action = "seek" then
    Except.ok { rs1 with time := tv }
  else if action = "stop" then
    Except.ok { rs1 with state := "stopped", time := 0 }
  else Except.error "Invalid action"

/-- The `control` handler.  Room and host are checked first; a missing
action is rejected before anything is written; then `last_update` is set to
the current time, and only afterwards is the action dispatched, so an
unknown action or an invalid `load` song is rejected with `last_update`
already mutated (the `rs1` commit in the error branch).  `songs` is the
catalog returned by `get_cached_songs()`. -/
def control (songs : List String) (st : ServerState) (sid : String)
    (d : ControlData) (now : Rat) : ServerState × List Emit :=
  match d.room with
  | none => (st, [errTo sid "Invalid room"])
  | some room =>
    if room = "" then (st, [errTo sid "Invalid room"]) else
    match lookupA st.rooms room with
    | none => (st, [errTo sid "Invalid room"])
    | some rs =>
      if rs.host_sid = some sid then
        match d.action with
        | none => (st, [errTo sid "Missing action"])
        | some action =>
          if action = "" then (st, [errTo sid "Missing action"]) else
          match apply_action songs action d.song (time_value d.time)
              { rs with last_update := now } with
          | Except.error msg =>
              ({ st with
                  rooms :=
                    updA st.rooms room (fun _ => { rs with last_update := now }) },
               [errTo sid msg])
          | Except.ok rs2 =>
              ({ st with rooms := updA st.rooms room (fun _ => rs2) },
               [{ target := Target.toRoom room
                  event := "update"
                  payload := Value.obj
                    [("song", optStr rs2.song),
                     ("state", Value.str rs2.state),
                     ("time", Value.num rs2.time),
                     ("timestamp", Value.num now),
                     ("user", Value.str (userLabel st.sessions sid "unknown"))] }])
      else (st, [errTo sid "Only the host can control playback"])

/-- The `sync_request` handler: read-only snapshot of the room. -/
def sync_request (st : ServerState) (sid : String) (roomOpt : Option String)
    (now : Rat) : ServerState × List Emit :=
  match roomOpt with
  | none => (st, [])
  | some room =>
    if room = "" then (st, []) else
    match lookupA st.rooms room with
    | none => (st, [])
    | some rs =>
      (st, [{ target := Target.toSid sid
              event := "sync_response"
              payload := Value.obj
                [("song", optStr rs.song),
                 ("state", Value.str rs.state),
                 ("time", Value.num rs.time),
                 ("timestamp", Value.num rs.last_update),
                 ("server_time", Value.num now)] }])

/-- The `request_host` handler: if a host exists and is not the requester,
only notify the current host; otherwise grant host to the requester. -/
def request_host (st : ServerState) (sid : String) (roomOpt : Option String) :
    ServerState × List Emit :=
  match roomOpt with
  | none => (st, [errTo sid "Invalid room"])
  | some room =>
    if room = "" then (st, [errTo sid "Invalid room"]) else
    match lookupA st.rooms room with
    | none => (st, [errTo sid "Invalid room"])
    | some rs =>
      let grant : ServerState × List Emit :=
        let newName := userLabel st.sessions sid "Unknown"
        let rs' := { rs with host_sid := some sid, host_username := some newName }
        ({ st with rooms := updA st.rooms room (fun _ => rs') },
         [{ target := Target.toRoom room
            event := "host_changed"
            payload := Value.obj
              [("old_host", optStr rs.host_username),
               ("new_host", Value.str newName),
               ("new_host_sid", Value.str sid)] },
          { target := Target.toSid sid
            event := "host_granted"
            payload := Value.obj [] }])
      match rs.host_sid with
      | some h =>
          if h = sid then grant
          else
            (st, [{ target := Target.toSid h
                    event := "host_transfer_request"
                    payload := Value.obj
                      [("requester_sid", Value.str sid),
                       ("requester_username",
                        Value.str (userLabel st.sessions sid "Unknown"))] },
                  { target := Target.toSid sid
                    event := "info"
                    payload := Value.obj
                      [("message",
                        Value.str "Host transfer request sent to current host")] }])
      | none => grant

/-- The `accept_host_transfer` handler: only the current host may accept;
the requester sid taken from the event data is installed as host without
any membership check. -/
def accept_host_transfer (st : ServerState) (sid : String)
    (roomOpt requesterOpt : Option String) : ServerState × List Emit :=
  match roomOpt with
  | none => (st, [errTo sid "Invalid request"])
  | some room =>
    if room = "" then (st, [errTo sid "Invalid request"]) else
    match lookupA st.rooms room with
    | none => (st, [errTo sid "Invalid request"])
    | some rs =>
      if rs.host_sid = some sid then
        let newName := match requesterOpt with
          | none => "Unknown"
          | some r => userLabel st.sessions r "Unknown"
        let rs' := { rs with host_sid := requesterOpt, host_username := some newName }
        let grantTarget := match requesterOpt with
          | some r => Target.toSid r
          | none => Target.all
        ({ st with rooms := updA st.rooms room (fun _ => rs') },
         [{ target := Target.toRoom room
            event := "host_changed"
            payload := Value.obj
              [("old_host", optStr rs.host_username),
               ("new_host", Value.str newName),
               ("new_host_sid", optStr requesterOpt)] },
          { target := grantTarget
            event := "host_granted"
            payload := Value.obj [] },
          { target := Target.toSid sid
            event := "info"
            payload := Value.obj
              [("message", Value.str "Host transferred successfully")] }])
      else (st, [errTo sid "Invalid request"])

/-- The `reject_host_transfer` handler: only the current host may reject;
the room state is untouched. -/
def reject_host_transfer (st : ServerState) (sid : String)
    (roomOpt requesterOpt : Option String) : ServerState × List Emit :=
  match roomOpt with
  | none => (st, [])
  | some room =>
    if room = "" then (st, []) else
    match lookupA st.rooms room with
    | none => (st, [])
    | some rs =>
      if rs.host_sid = some sid then
        let target := match requesterOpt with
          | some r => Target.toSid r
          | none => Target.all
        (st, [{ target := target
                event := "host_transfer_rejected"
                payload := Value.obj
                  [("host_username", optStr rs.host_username)] }])
      else (st, [])

/-- One inbound client event together with the issuing session id. -/
inductive Op where
  | connect : String → Op
  | disconnect : String → Op
  | joinRoom : String → JoinData → Op
  | createRoom : String → JoinData → Op
  | leaveRoom : String → Option String → Op
  | control : String → ControlData → Op
  | syncRequest : String → Option String → Op
  | requestHost : String → Option String → Op
  | acceptHostTransfer : String → Option String → Option String → Op
  | rejectHostTransfer : String → Option String → Option String → Op
  deriving DecidableEq

/-- Dispatch one event (with its wall-clock time) to its handler; the
event loop serialises handlers, so the state seen by each handler is the
state left by the previous one. -/
def step (songs : List String) (st : ServerState) : Op × Rat → ServerState
  | (Op.connect sid, now) => (connect st sid now).1
  | (Op.disconnect sid, now) => (disconnect st sid now).1
  | (Op.joinRoom sid d, now) => (join_room st sid d now).1
  | (Op.createRoom sid d, now) => (create_room st sid d now).1
  | (Op.leaveRoom sid r, now) => (leave_room st sid r now).1
  | (Op.control sid d, now) => (control songs st sid d now).1
  | (Op.syncRequest sid r, now) => (sync_request st sid r now).1
  | (Op.requestHost sid r, _) => (request_host st sid r).1
  | (Op.acceptHostTransfer sid r q, _) => (accept_host_transfer st sid r q).1
  | (Op.rejectHostTransfer sid r q, _) => (reject_host_transfer st sid r q).1

/-- Run a sequence of timestamped events from the empty initial state. -/
def run (songs : List String) (ops : List (Op × Rat)) : ServerState :=
  ops.foldl (step songs) initState

end MusicServer

namespace MusicServer

/-! ## Association-list lemmas -/

theorem lookupA_mem {α : Type} {l : List (String × α)} {k : String} {v : α}
    (h : lookupA l k = some v) : (k, v) ∈ l := by
  induction l with
  | nil => simp [lookupA] at h
  | cons q rest ih =>
    rw [show lookupA (q :: rest) k = if q.1 = k then some q.2 else lookupA rest k
      from rfl] at h
    by_cases hq : q.1 = k
    · rw [if_pos hq] at h
      have hv : q.2 = v := by simpa using h
      rw [show (k, v) = q from Prod.ext hq.symm hv.symm]
      exact List.mem_cons_self q rest
    · rw [if_neg hq] at h
      exact List.mem_cons_of_mem _ (ih h)

theorem lookupA_updA_self {α : Type} (l : List (String × α)) (k : String)
    (f : α → α) : lookupA (updA l k f) k = (lookupA l k).map f := by
  induction l with
  | nil => rfl
  | cons q rest ih =>
    simp only [updA, List.map_cons]
    by_cases hq : q.1 = k
    · rw [if_pos hq]
      simp only [lookupA, if_pos hq]
      rfl
    · rw [if_neg hq]
      simp only [lookupA, if_neg hq]
      exact ih

theorem lookupA_updA_ne {α : Type} (l : List (String × α)) (k k' : String)
    (f : α → α) (h : k' ≠ k) : lookupA (updA l k f) k' = lookupA l k' := by
  induction l with
  | nil => rfl
  | cons q rest ih =>
    simp only [updA, List.map_cons]
    by_cases hq : q.1 = k
    · rw [if_pos hq]
      have hq' : q.1 ≠ k' := by rw [hq]; exact fun he => h he.symm
      simp only [lookupA, if_neg hq']
      exact ih
    · rw [if_neg hq]
      by_cases hq' : q.1 = k'
      · simp only [lookupA, if_pos hq']
      · simp only [lookupA, if_neg hq']
        exact ih

theorem lookupA_putA_self {α : Type} (l : List (String × α)) (k : String)
    (v : α) : lookupA (putA l k v) k = some v := by
  induction l with
  | nil => simp [lookupA, putA]
  | cons q rest ih =>
    simp only [putA]
    by_cases hq : q.1 = k
    · rw [if_pos hq]
      simp only [lookupA, if_pos hq]
    · rw [if_neg hq]
      simp only [lookupA, if_neg hq]
      exact ih

theorem mem_putA {α : Type} {l : List (String × α)} {k : String} {v : α}
    {p : String × α} (hp : p ∈ putA l k v) : p = (k, v) ∨ p ∈ l := by
  induction l with
  | nil => simpa [putA] using hp
  | cons q rest ih =>
    simp only [putA] at hp
    by_cases hq : q.1 = k
    · rw [if_pos hq] at hp
      rcases List.mem_cons.1 hp with h | h
      · exact Or.inl (by rw [h, hq])
      · exact Or.inr (List.mem_cons_of_mem _ h)
    · rw [if_neg hq] at hp
      rcases List.mem_cons.1 hp with h | h
      · exact Or.inr (by simp [h])
      · rcases ih h with h' | h'
        · exact Or.inl h'
        · exact Or.inr (List.mem_cons_of_mem _ h')

theorem mem_updA {α : Type} {l : List (String × α)} {k : String} {f : α → α}
    {p : String × α} (hp : p ∈ updA l k f) :
    p ∈ l ∨ ∃ q, q ∈ l ∧ q.1 = k ∧ p = (q.1, f q.2) := by
  rcases List.mem_map.1 hp with ⟨q, hq, he⟩
  by_cases hk : q.1 = k
  · exact Or.inr ⟨q, hq, hk, by rw [← he]; simp [hk]⟩
  · left
    rw [← he]
    simpa [hk] using hq

theorem mem_delA {α : Type} {l : List (String × α)} {k : String}
    {p : String × α} (hp : p ∈ delA l k) : p ∈ l :=
  (List.mem_filter.1 hp).1

/-! ## User-set lemmas -/

theorem mem_addUser {x s : String} {l : List String} :
    x ∈ addUser s l ↔ x = s ∨ x ∈ l := by
  unfold addUser
  by_cases h : s ∈ l
  · simp only [if_pos h]
    constructor
    · exact Or.inr
    · rintro (rfl | hx)
      · exact h
      · exact hx
  · simp [if_neg h]

theorem addUser_ne_nil (s : String) (l : List String) : addUser s l ≠ [] := by
  unfold addUser
  by_cases h : s ∈ l
  · simp only [if_pos h]
    rintro rfl
    exact List.not_mem_nil s h
  · simp [if_neg h]

theorem addUser_nodup {s : String} {l : List String} (h : l.Nodup) :
    (addUser s l).Nodup := by
  unfold addUser
  by_cases hs : s ∈ l
  · simpa [if_pos hs] using h
  · simp [if_neg hs, h, hs]

/-! ## Reachable-state invariants -/

/-- Structural room invariant maintained by every handler: a room stored in
the registry has a non-empty, duplicate-free user set and a non-negative
playback position. -/
def BaseOk (rs : RoomState) : Prop :=
  rs.users ≠ [] ∧ rs.users.Nodup ∧ 0 ≤ rs.time

/-- The host invariant of the spec: a set host is a member, and a room with
members has a host. -/
def HostOk (rs : RoomState) : Prop :=
  (∀ h, rs.host_sid = some h → h ∈ rs.users) ∧ (rs.users ≠ [] → rs.host_sid ≠ none)

/-- `BaseOk` for every registered room. -/
def InvB (st : ServerState) : Prop := ∀ p ∈ st.rooms, BaseOk p.2

/-- `BaseOk` and `HostOk` for every registered room. -/
def InvH (st : ServerState) : Prop := ∀ p ∈ st.rooms, BaseOk p.2 ∧ HostOk p.2

theorem invOf_updA {P : RoomState → Prop} {l : List (String × RoomState)}
    {k : String} {f : RoomState → RoomState} {p : String × RoomState}
    (hl : ∀ q ∈ l, P q.2) (hf : ∀ q ∈ l, q.1 = k → P (f q.2))
    (hp : p ∈ updA l k f) : P p.2 := by
  rcases mem_updA hp with h | ⟨q, hq, hk, he⟩
  · exact hl p h
  · rw [he]
    exact hf q hq hk

theorem invOf_delA {P : RoomState → Prop} {l : List (String × RoomState)}
    {k : String} {p : String × RoomState}
    (hl : ∀ q ∈ l, P q.2) (hp : p ∈ delA l k) : P p.2 :=
  hl p (mem_delA hp)

theorem time_value_nonneg (t : Option Rat) : 0 ≤ time_value t :=
  le_max_left 0 _

theorem connect_rooms (st : ServerState) (sid : String) (now : Rat) :
    (connect st sid now).1.rooms = st.rooms := rfl

theorem sync_request_fst (st : ServerState) (sid : String)
    (r : Option String) (now : Rat) : (sync_request st sid r now).1 = st := by
  unfold sync_request
  rcases r with _ | room
  · rfl
  · by_cases h : room = ""
    · simp [h]
    · simp only [if_neg h]
      rcases lookupA st.rooms room with _ | rs <;> rfl

theorem reject_host_transfer_fst (st : ServerState) (sid : String)
    (r q : Option String) : (reject_host_transfer st sid r q).1 = st := by
  unfold reject_host_transfer
  rcases r with _ | room
  · rfl
  · by_cases h : room = ""
    · simp [h]
    · simp only [if_neg h]
      rcases lookupA st.rooms room with _ | rs
      · rfl
      · by_cases hh : rs.host_sid = some sid <;> simp [hh]

/-- Every room in the post-`disconnect` registry is either an untouched
room that never contained `sid`, or a touched room with `sid` erased and at
least one member left; nothing else (in particular the host fields) is
changed, and emptied rooms are dropped. -/
theorem mem_disconnect_rooms {st : ServerState} {sid : String} {now : Rat}
    {p : String × RoomState} (hp : p ∈ (disconnect st sid now).1.rooms) :
    (p ∈ st.rooms ∧ sid ∉ p.2.users) ∨
    ∃ q, q ∈ st.rooms ∧ sid ∈ q.2.users ∧ q.2.users.erase sid ≠ [] ∧
      p = (q.1, { q.2 with users := q.2.users.erase sid, last_update := now }) := by
  have hp' : p ∈ st.rooms.filterMap (fun q =>
      if sid ∈ q.2.users then
        (if ({ q.2 with users := q.2.users.erase sid, last_update := now } :
              RoomState).users.isEmpty then none
         else some (q.1, { q.2 with users := q.2.users.erase sid, last_update := now }))
      else some q) := hp
  rcases List.mem_filterMap.1 hp' with ⟨q, hq, he⟩
  by_cases hin : sid ∈ q.2.users
  · rw [if_pos hin] at he
    by_cases hemp : ({ q.2 with users := q.2.users.erase sid, last_update := now } :
        RoomState).users.isEmpty
    · rw [if_pos hemp] at he
      exact absurd he (by simp)
    · rw [if_neg hemp] at he
      refine Or.inr ⟨q, hq, hin, ?_, by simpa using he.symm⟩
      simpa [List.isEmpty_iff] using hemp
  · rw [if_neg hin] at he
    obtain rfl : q = p := by simpa using he
    exact Or.inl ⟨hq, hin⟩

theorem InvB_disconnect {st : ServerState} {sid : String} {now : Rat}
    (hI : InvB st) : InvB (disconnect st sid now).1 := by
  intro p hp
  rcases mem_disconnect_rooms hp with ⟨hq, _⟩ | ⟨q, hq, _, hne, rfl⟩
  · exact hI p hq
  · obtain ⟨_, hnd, ht⟩ := hI q hq
    exact ⟨hne, hnd.erase sid, ht⟩

theorem InvB_join {st : ServerState} {sid : String} {d : JoinData} {now : Rat}
    (hI : InvB st) : InvB (join_room st sid d now).1 := by
  simp only [join_room]
  split
  · exact hI
  case _ rs hl =>
    split
    · exact hI
    · intro p hp
      dsimp only at hp
      refine invOf_updA (P := BaseOk) (fun q hq => hI q hq) (fun q hq hk => ?_) hp
      obtain ⟨hne, hnd, ht⟩ := hI _ (lookupA_mem hl)
      by_cases hh : rs.host_sid = none
      · simp only [BaseOk, if_pos hh]
        exact ⟨addUser_ne_nil sid rs.users, addUser_nodup hnd, ht⟩
      · simp only [BaseOk, if_neg hh]
        exact ⟨addUser_ne_nil sid rs.users, addUser_nodup hnd, ht⟩

/-- A successful `apply_action` only rewrites `song`, `state` and `time`;
every other field is kept, and the new `time` is the sanitised input or 0. -/
theorem apply_action_frame {songs : List String} {action : String}
    {songOpt : Option String} {tv : Rat} {rs1 rs2 : RoomState}
    (h : apply_action songs action songOpt tv rs1 = Except.ok rs2) :
    rs2.users = rs1.users ∧ rs2.host_sid = rs1.host_sid ∧
    rs2.host_username = rs1.host_username ∧ rs2.password = rs1.password ∧
    rs2.is_locked = rs1.is_locked ∧ rs2.last_update = rs1.last_update ∧
    (rs2.time = tv ∨ rs2.time = 0) := by
  unfold apply_action at h
  split at h
  · -- load
    split at h
    · injection h with h2
      subst h2
      exact ⟨rfl, rfl, rfl, rfl, rfl, rfl, Or.inl rfl⟩
    · exact absurd h (by simp)
  split at h
  · -- play
    injection h with h2
    subst h2
    rcases songOpt with _ | song
    · exact ⟨rfl, rfl, rfl, rfl, rfl, rfl, Or.inl rfl⟩
    · by_cases hok : song ≠ "" ∧ song ∈ songs
      · rw [show (match some song with
            | some song =>
                if song ≠ "" ∧ song ∈ songs then { rs1 with song := some song }
                else rs1
            | none => rs1) =
            (if song ≠ "" ∧ song ∈ songs then { rs1 with song := some song }
             else rs1) from rfl, if_pos hok]
        exact ⟨rfl, rfl, rfl, rfl, rfl, rfl, Or.inl rfl⟩
      · rw [show (match some song with
            | some song =>
                if song ≠ "" ∧ song ∈ songs then { rs1 with song := some song }
                else rs1
            | none => rs1) =
            (if song ≠ "" ∧ song ∈ songs then { rs1 with song := some song }
             else rs1) from rfl, if_neg hok]
        exact ⟨rfl, rfl, rfl, rfl, rfl, rfl, Or.inl rfl⟩
  split at h
  · -- pause
    injection h with h2
    subst h2
    exact ⟨rfl, rfl, rfl, rfl, rfl, rfl, Or.inl rfl⟩
  split at h
  · -- seek
    injection h with h2
    subst h2
    exact ⟨rfl, rfl, rfl, rfl, rfl, rfl, Or.inl rfl⟩
  split at h
  · -- stop
    injection h with h2
    subst h2
    exact ⟨rfl, rfl, rfl, rfl, rfl, rfl, Or.inr rfl⟩
  · exact absurd h (by simp)

/-- Shape of the state left by `control`: the sessions are untouched, and
the registry is either unchanged or a single in-place room update that
preserves the member set, both host fields, the password and the lock flag,
and keeps the position non-negative whenever it changes it. -/
theorem control_shape (songs : List String) (st : ServerState) (sid : String)
    (d : ControlData) (now : Rat) :
    (control songs st sid d now).1.sessions = st.sessions ∧
    ((control songs st sid d now).1.rooms = st.rooms ∨
     ∃ room rs rs2, d.room = some room ∧ lookupA st.rooms room = some rs ∧
       (control songs st sid d now).1.rooms = updA st.rooms room (fun _ => rs2) ∧
       rs2.users = rs.users ∧ rs2.host_sid = rs.host_sid ∧
       rs2.host_username = rs.host_username ∧ rs2.password = rs.password ∧
       rs2.is_locked = rs.is_locked ∧ (0 ≤ rs2.time ∨ rs2.time = rs.time)) := by
  unfold control
  split
  · exact ⟨rfl, Or.inl rfl⟩
  rename_i room hroom
  split
  · exact ⟨rfl, Or.inl rfl⟩
  split
  · exact ⟨rfl, Or.inl rfl⟩
  rename_i rs hlook
  split
  case isFalse => exact ⟨rfl, Or.inl rfl⟩
  split
  · exact ⟨rfl, Or.inl rfl⟩
  rename_i action hact
  split
  · exact ⟨rfl, Or.inl rfl⟩
  split
  · -- rejected action or song: only the stamped `last_update` commit
    exact ⟨rfl, Or.inr ⟨room, rs, _, hroom, hlook, rfl, rfl, rfl, rfl, rfl, rfl,
      Or.inr rfl⟩⟩
  · -- success
    rename_i rs2 hok
    obtain ⟨hu, hh, hhu, hpw, hlk, _, htv⟩ := apply_action_frame hok
    refine ⟨rfl, Or.inr ⟨room, rs, rs2, hroom, hlook, rfl, hu, hh, hhu, hpw, hlk, ?_⟩⟩
    rcases htv with h0 | h0
    · exact Or.inl (by rw [h0]; exact time_value_nonneg d.time)
    · exact Or.inl (by rw [h0])

theorem InvB_control {songs : List String} {st : ServerState} {sid : String}
    {d : ControlData} {now : Rat} (hI : InvB st) :
    InvB (control songs st sid d now).1 := by
  rcases (control_shape songs st sid d now).2 with h |
    ⟨room, rs, rs2, _, hl, he, hu, _, _, _, _, ht⟩
  · intro p hp
    rw [h] at hp
    exact hI p hp
  · intro p hp
    rw [he] at hp
    refine invOf_updA (P := BaseOk) (fun q hq => hI q hq) (fun q hq hk => ?_) hp
    obtain ⟨hne, hnd, ht0⟩ := hI _ (lookupA_mem hl)
    refine ⟨hu ▸ hne, hu ▸ hnd, ?_⟩
    rcases ht with h0 | h0
    · exact h0
    · rw [h0]; exact ht0

theorem InvH_control {songs : List String} {st : ServerState} {sid : String}
    {d : ControlData} {now : Rat} (hI : InvH st) :
    InvH (control songs st sid d now).1 := by
  rcases (control_shape songs st sid d now).2 with h |
    ⟨room, rs, rs2, _, hl, he, hu, hh, _, _, _, ht⟩
  · intro p hp
    rw [h] at hp
    exact hI p hp
  · intro p hp
    rw [he] at hp
    refine invOf_updA (P := fun r => BaseOk r ∧ HostOk r)
      (fun q hq => hI q hq) (fun q hq hk => ?_) hp
    obtain ⟨⟨hne, hnd, ht0⟩, hmem, hsome⟩ := hI _ (lookupA_mem hl)
    refine ⟨⟨hu ▸ hne, hu ▸ hnd, ?_⟩, ?_, ?_⟩
    · rcases ht with h0 | h0
      · exact h0
      · rw [h0]; exact ht0
    · intro h0 he0
      rw [hu]
      exact hmem h0 (hh ▸ he0)
    · intro hne0
      rw [hh]
      exact hsome (hu ▸ hne0)

theorem InvH_join {st : ServerState} {sid : String} {d : JoinData} {now : Rat}
    (hI : InvH st) : InvH (join_room st sid d now).1 := by
  simp only [join_room]
  split
  · exact hI
  case _ rs hl =>
    split
    · exact hI
    · intro p hp
      dsimp only at hp
      refine invOf_updA (P := fun r => BaseOk r ∧ HostOk r)
        (fun q hq => hI q hq) (fun q hq hk => ?_) hp
      obtain ⟨⟨hne, hnd, ht⟩, hmem, hsome⟩ := hI _ (lookupA_mem hl)
      by_cases hh : rs.host_sid = none
      · simp only [if_pos hh]
        refine ⟨⟨addUser_ne_nil sid rs.users, addUser_nodup hnd, ht⟩, ?_, ?_⟩
        · intro h0 he0
          obtain rfl : sid = h0 := by simpa using he0
          exact mem_addUser.2 (Or.inl rfl)
        · intro _
          simp
      · simp only [if_neg hh]
        refine ⟨⟨addUser_ne_nil sid rs.users, addUser_nodup hnd, ht⟩, ?_, ?_⟩
        · intro h0 he0
          exact mem_addUser.2 (Or.inr (hmem h0 he0))
        · intro _
          exact hh

theorem InvH_create {st : ServerState} {sid : String} {d : JoinData}
    {now : Rat} (hI : InvH st) : InvH (create_room st sid d now).1 := by
  simp only [create_room]
  split
  · exact hI
  · intro p hp
    dsimp only at hp
    rcases mem_putA hp with h | h
    · rw [h]
      simp only [BaseOk, HostOk, RoomState.init]
      refine ⟨⟨addUser_ne_nil sid [], addUser_nodup List.nodup_nil, le_refl 0⟩, ?_, ?_⟩
      · intro h0 he0
        obtain rfl : sid = h0 := by simpa using he0
        exact mem_addUser.2 (Or.inl rfl)
      · intro _
        simp
    · exact hI p h

theorem InvB_create {st : ServerState} {sid : String} {d : JoinData}
    {now : Rat} (hI : InvB st) : InvB (create_room st sid d now).1 := by
  simp only [create_room]
  split
  · exact hI
  · intro p hp
    dsimp only at hp
    rcases mem_putA hp with h | h
    · rw [h]
      simp only [BaseOk, RoomState.init]
      exact ⟨addUser_ne_nil sid [], addUser_nodup List.nodup_nil, le_refl 0⟩
    · exact hI p h

theorem InvH_leave {st : ServerState} {sid : String} {roomOpt : Option String}
    {now : Rat} (hI : InvH st) : InvH (leave_room st sid roomOpt now).1 := by
  simp only [leave_room]
  split
  · exact hI
  rename_i room
  split
  · exact hI
  split
  · exact hI
  rename_i rs hl
  split
  case isFalse => exact hI
  rename_i hin
  intro p hp
  dsimp only at hp
  obtain ⟨⟨hne0, hnd, ht⟩, hmem, hsome⟩ := hI _ (lookupA_mem hl)
  by_cases hw : rs.host_sid = some sid
  · rw [if_pos hw] at hp
    rcases hu : rs.users.erase sid with _ | ⟨nh, t⟩
    · simp only [hu] at hp
      exact hI p (mem_delA hp)
    · simp only [hu, List.isEmpty_cons, Bool.false_eq_true, if_false] at hp
      refine invOf_updA (P := fun r => BaseOk r ∧ HostOk r)
        (fun q hq => hI q hq) (fun q hq hk => ?_) hp
      refine ⟨⟨by simp, ?_, ht⟩, ?_, ?_⟩
      · rw [← hu]
        exact hnd.erase sid
      · intro h0 he0
        obtain rfl : nh = h0 := by simpa using he0
        exact List.mem_cons_self nh t
      · intro _
        simp
  · rw [if_neg hw] at hp
    dsimp only at hp
    split at hp
    · exact hI p (mem_delA hp)
    rename_i hne
    refine invOf_updA (P := fun r => BaseOk r ∧ HostOk r)
      (fun q hq => hI q hq) (fun q hq hk => ?_) hp
    refine ⟨⟨?_, hnd.erase sid, ht⟩, ?_, ?_⟩
    · simpa [List.isEmpty_iff] using hne
    · intro h0 he0
      have hne0' : h0 ≠ sid := by
        intro hc
        exact hw (by rw [← hc]; exact he0)
      exact (List.mem_erase_of_ne hne0').2 (hmem h0 he0)
    · intro _
      exact hsome (List.ne_nil_of_mem hin)

theorem InvB_leave {st : ServerState} {sid : String} {roomOpt : Option String}
    {now : Rat} (hI : InvB st) : InvB (leave_room st sid roomOpt now).1 := by
  simp only [leave_room]
  split
  · exact hI
  rename_i room
  split
  · exact hI
  split
  · exact hI
  rename_i rs hl
  split
  case isFalse => exact hI
  rename_i hin
  intro p hp
  dsimp only at hp
  obtain ⟨hne0, hnd, ht⟩ := hI _ (lookupA_mem hl)
  by_cases hw : rs.host_sid = some sid
  · rw [if_pos hw] at hp
    rcases hu : rs.users.erase sid with _ | ⟨nh, t⟩
    · simp only [hu] at hp
      exact hI p (mem_delA hp)
    · simp only [hu, List.isEmpty_cons, Bool.false_eq_true, if_false] at hp
      refine invOf_updA (P := BaseOk) (fun q hq => hI q hq) (fun q hq hk => ?_) hp
      refine ⟨by simp, ?_, ht⟩
      rw [← hu]
      exact hnd.erase sid
  · rw [if_neg hw] at hp
    dsimp only at hp
    split at hp
    · exact hI p (mem_delA hp)
    rename_i hne
    refine invOf_updA (P := BaseOk) (fun q hq => hI q hq) (fun q hq hk => ?_) hp
    refine ⟨?_, hnd.erase sid, ht⟩
    simpa [List.isEmpty_iff] using hne

theorem InvH_request {st : ServerState} {sid : String} {roomOpt : Option String}
    (hI : InvH st) : InvH (request_host st sid roomOpt).1 := by
  simp only [request_host]
  split
  · exact hI
  rename_i room
  split
  · exact hI
  split
  · exact hI
  rename_i rs hl
  split
  case _ h0 hh =>
    split
    case isTrue heq =>
      intro p hp
      dsimp only at hp
      refine invOf_updA (P := fun r => BaseOk r ∧ HostOk r)
        (fun q hq => hI q hq) (fun q hq hk => ?_) hp
      obtain ⟨⟨hne, hnd, ht⟩, hmem, hsome⟩ := hI _ (lookupA_mem hl)
      refine ⟨⟨hne, hnd, ht⟩, ?_, ?_⟩
      · intro h1 he1
        obtain rfl : sid = h1 := by simpa using he1
        exact hmem sid (by rw [hh, heq])
      · intro _
        simp
    case isFalse => exact hI
  case _ hh =>
    intro p hp
    dsimp only at hp
    refine invOf_updA (P := fun r => BaseOk r ∧ HostOk r)
      (fun q hq => hI q hq) (fun q hq hk => ?_) hp
    obtain ⟨⟨hne, hnd, ht⟩, hmem, hsome⟩ := hI _ (lookupA_mem hl)
    exact absurd hh (hsome hne)

theorem InvB_request {st : ServerState} {sid : String} {roomOpt : Option String}
    (hI : InvB st) : InvB (request_host st sid roomOpt).1 := by
  simp only [request_host]
  split
  · exact hI
  rename_i room
  split
  · exact hI
  split
  · exact hI
  rename_i rs hl
  split
  case _ h0 hh =>
    split
    case isTrue heq =>
      intro p hp
      dsimp only at hp
      refine invOf_updA (P := BaseOk) (fun q hq => hI q hq) (fun q hq hk => ?_) hp
      exact hI _ (lookupA_mem hl)
    case isFalse => exact hI
  case _ hh =>
    intro p hp
    dsimp only at hp
    refine invOf_updA (P := BaseOk) (fun q hq => hI q hq) (fun q hq hk => ?_) hp
    exact hI _ (lookupA_mem hl)

theorem InvB_accept {st : ServerState} {sid : String}
    {roomOpt requesterOpt : Option String} (hI : InvB st) :
    InvB (accept_host_transfer st sid roomOpt requesterOpt).1 := by
  simp only [accept_host_transfer]
  split
  · exact hI
  rename_i room
  split
  · exact hI
  split
  · exact hI
  rename_i rs hl
  split
  case isFalse => exact hI
  intro p hp
  dsimp only at hp
  refine invOf_updA (P := BaseOk) (fun q hq => hI q hq) (fun q hq hk => ?_) hp
  exact hI _ (lookupA_mem hl)

theorem InvB_step (songs : List String) {st : ServerState} (x : Op × Rat)
    (hI : InvB st) : InvB (step songs st x) := by
  rcases x with ⟨op, now⟩
  cases op with
  | connect sid =>
      intro p hp
      rw [show step songs st (Op.connect sid, now) = (connect st sid now).1
        from rfl, connect_rooms] at hp
      exact hI p hp
  | disconnect sid => exact InvB_disconnect hI
  | joinRoom sid d => exact InvB_join hI
  | createRoom sid d => exact InvB_create hI
  | leaveRoom sid r => exact InvB_leave hI
  | control sid d => exact InvB_control hI
  | syncRequest sid r =>
      intro p hp
      rw [show step songs st (Op.syncRequest sid r, now) =
        (sync_request st sid r now).1 from rfl, sync_request_fst] at hp
      exact hI p hp
  | requestHost sid r => exact InvB_request hI
  | acceptHostTransfer sid r q => exact InvB_accept hI
  | rejectHostTransfer sid r q =>
      intro p hp
      rw [show step songs st (Op.rejectHostTransfer sid r q, now) =
        (reject_host_transfer st sid r q).1 from rfl,
        reject_host_transfer_fst] at hp
      exact hI p hp

/-- Events whose handlers preserve the host invariant: everything except
`disconnect` (which never reassigns the host) and `accept_host_transfer`
(which installs an unchecked requester sid). -/
def benign : Op → Bool
  | Op.disconnect _ => false
  | Op.acceptHostTransfer _ _ _ => false
  | _ => true

theorem InvH_step (songs : List String) {st : ServerState} (x : Op × Rat)
    (hb : benign x.1 = true) (hI : InvH st) : InvH (step songs st x) := by
  rcases x with ⟨op, now⟩
  cases op with
  | connect sid =>
      intro p hp
      rw [show step songs st (Op.connect sid, now) = (connect st sid now).1
        from rfl, connect_rooms] at hp
      exact hI p hp
  | disconnect sid => exact absurd hb (by simp [benign])
  | joinRoom sid d => exact InvH_join hI
  | createRoom sid d => exact InvH_create hI
  | leaveRoom sid r => exact InvH_leave hI
  | control sid d => exact InvH_control hI
  | syncRequest sid r =>
      intro p hp
      rw [show step songs st (Op.syncRequest sid r, now) =
        (sync_request st sid r now).1 from rfl, sync_request_fst] at hp
      exact hI p hp
  | requestHost sid r => exact InvH_request hI
  | acceptHostTransfer sid r q => exact absurd hb (by simp [benign])
  | rejectHostTransfer sid r q =>
      intro p hp
      rw [show step songs st (Op.rejectHostTransfer sid r q, now) =
        (reject_host_transfer st sid r q).1 from rfl,
        reject_host_transfer_fst] at hp
      exact hI p hp

theorem InvB_foldl (songs : List String) (ops : List (Op × Rat)) :
    ∀ st : ServerState, InvB st → InvB (ops.foldl (step songs) st) := by
  induction ops with
  | nil => exact fun st h => h
  | cons x rest ih => exact fun st h => ih _ (InvB_step songs x h)

theorem InvB_run (songs : List String) (ops : List (Op × Rat)) :
    InvB (run songs ops) :=
  InvB_foldl songs ops initState (by intro p hp; simp [initState] at hp)

theorem InvH_foldl (songs : List String) (ops : List (Op × Rat))
    (hb : ∀ x ∈ ops, benign x.1 = true) :
    ∀ st : ServerState, InvH st → InvH (ops.foldl (step songs) st) := by
  induction ops with
  | nil => exact fun st h => h
  | cons x rest ih =>
      intro st h
      exact ih (fun y hy => hb y (List.mem_cons_of_mem x hy)) _
        (InvH_step songs x (hb x (List.mem_cons_self x rest)) h)

theorem InvH_run (songs : List String) (ops : List (Op × Rat))
    (hb : ∀ x ∈ ops, benign x.1 = true) : InvH (run songs ops) :=
  InvH_foldl songs ops hb initState (by intro p hp; simp [initState] at hp)

/-! ## Concrete fixtures used by witnesses and counterexamples -/

/-- A one-event trace: connection A creates room "r" (no password). -/
def trA : List (Op × Rat) :=
  [(Op.createRoom "A" ⟨some "u", some "r", none⟩, 0)]

/-- The server state after `trA`. -/
def stA : ServerState := run [] trA

/-- The room stored under "r" after `trA`. -/
def roomA : RoomState :=
  { song := none, state := "stopped", time := 0, last_update := 0,
    users := ["A"], host_sid := some "A", host_username := some "u",
    password := none, is_locked := false }

/-! ## C5 -/

/-- C5: room existence iff non-empty membership — after any sequence of
operations (create, join, leave, disconnect cleanup, and the rest), every
room present in the registry has a non-empty member set; a deleted or
never-created room has no entry, so presence coincides with non-empty
membership. -/
theorem c5_room_exists_iff_nonempty (songs : List String)
    (ops : List (Op × Rat)) (name : String) (rs : RoomState)
    (h : lookupA (run songs ops).rooms name = some rs) : rs.users ≠ [] :=
  (InvB_run songs ops _ (lookupA_mem h)).1

theorem c5_witness :
    lookupA stA.rooms "r" = some roomA ∧ roomA.users ≠ [] :=
  ⟨by decide, c5_room_exists_iff_nonempty [] trA "r" roomA (by decide)⟩

/-! ## C4 -/

/-- The room stored under "r" after A creates it and then loads "a.mp3" at
position 5: playback state `stopped` with a non-zero position. -/
def c4Room : RoomState :=
  { song := some "a.mp3", state := "stopped", time := 5, last_update := 1,
    users := ["A"], host_sid := some "A", host_username := some "u",
    password := none, is_locked := false }

/-- C4 counterexample: a successful `load` with supplied time 5 yields a
reachable room whose playback state is `stopped` while its position is 5,
refuting "playbackState = stopped forces position = 0". -/
theorem c4_counterexample :
    lookupA (run ["a.mp3"]
      [(Op.createRoom "A" ⟨some "u", some "r", none⟩, 0),
       (Op.control "A" ⟨some "r", some "load", some "a.mp3", some 5⟩, 1)]).rooms
      "r" = some c4Room ∧
    c4Room.state = "stopped" ∧ c4Room.time ≠ 0 := by decide

/-- C4 (amended): in every reachable room state the position is ≥ 0, and a
`stop` command always produces position 0 in state `stopped`; but `load`
stores the supplied (clamped) time together with state `stopped`, so a
stopped state does not force position 0. -/
theorem c4_amended :
    (∀ (songs : List String) (ops : List (Op × Rat)) (name : String)
       (rs : RoomState),
       lookupA (run songs ops).rooms name = some rs → 0 ≤ rs.time) ∧
    (∀ (songs : List String) (st : ServerState) (sid room : String)
       (rs : RoomState) (sOpt : Option String) (tOpt : Option Rat) (now : Rat),
       room ≠ "" → lookupA st.rooms room = some rs → rs.host_sid = some sid →
       lookupA (control songs st sid ⟨some room, some "stop", sOpt, tOpt⟩
           now).1.rooms room =
         some { rs with last_update := now, state := "stopped", time := 0 }) := by
  constructor
  · intro songs ops name rs h
    exact (InvB_run songs ops _ (lookupA_mem h)).2.2
  · intro songs st sid room rs sOpt tOpt now hne hl hhost
    have hc : (control songs st sid ⟨some room, some "stop", sOpt, tOpt⟩
        now).1.rooms =
        updA st.rooms room
          (fun _ => { rs with last_update := now, state := "stopped", time := 0 }) := by
      simp [control, apply_action, hl, hne, hhost]
    rw [hc, lookupA_updA_self, hl]
    rfl

theorem c4_amended_witness :
    (0 : Rat) ≤ roomA.time ∧
    lookupA (control [] stA "A" ⟨some "r", some "stop", none, none⟩ 3).1.rooms
      "r" = some { roomA with last_update := 3, state := "stopped", time := 0 } :=
  ⟨c4_amended.1 [] trA "r" roomA (by decide),
   c4_amended.2 [] stA "A" "r" roomA none none 3 (by decide) (by decide) rfl⟩

/-! ## C1 -/

/-- The room stored under "r" after A creates it, B joins, and A
disconnects: the member set is down to B but `host_sid` still names the
departed connection A. -/
def c1Room : RoomState :=
  { song := none, state := "stopped", time := 0, last_update := 2,
    users := ["B"], host_sid := some "A", host_username := some "u",
    password := none, is_locked := false }

/-- C1 counterexample: after the reachable trace "A creates r, B joins r,
A disconnects", room "r" has a set host that is not a member of the room,
refuting the host-membership invariant as stated over all operations. -/
theorem c1_counterexample :
    lookupA (run []
      [(Op.createRoom "A" ⟨some "u", some "r", none⟩, 0),
       (Op.joinRoom "B" ⟨some "v", some "r", none⟩, 1),
       (Op.disconnect "A", 2)]).rooms "r" = some c1Room ∧
    c1Room.host_sid = some "A" ∧ "A" ∉ c1Room.users := by decide

/-- C1 (amended): the host invariant — a set host is a member, and a room
with members has a host — holds for every state reachable using only the
handlers that maintain it: create_room, join_room, leave_room, control,
sync_request, request_host and reject_host_transfer (plus connect).  It is
broken by `disconnect` (no host reassignment) and by
`accept_host_transfer` (unchecked requester sid). -/
theorem c1_amended (songs : List String) (ops : List (Op × Rat))
    (hb : ∀ x ∈ ops, benign x.1 = true) (name : String) (rs : RoomState)
    (h : lookupA (run songs ops).rooms name = some rs) :
    (∀ h0, rs.host_sid = some h0 → h0 ∈ rs.users) ∧
    (rs.users ≠ [] → rs.host_sid ≠ none) :=
  (InvH_run songs ops hb _ (lookupA_mem h)).2

/-- The trace where host A leaves and the host is reassigned to B. -/
def trLeave : List (Op × Rat) :=
  [(Op.createRoom "A" ⟨some "u", some "r", none⟩, 0),
   (Op.joinRoom "B" ⟨some "v", some "r", none⟩, 1),
   (Op.leaveRoom "A" (some "r"), 2)]

/-- The room stored under "r" after `trLeave`. -/
def roomLeave : RoomState :=
  { song := none, state := "stopped", time := 0, last_update := 2,
    users := ["B"], host_sid := some "B", host_username := some "Unknown",
    password := none, is_locked := false }

theorem c1_witness :
    "B" ∈ roomLeave.users ∧ roomLeave.host_sid ≠ none :=
  ⟨(c1_amended [] trLeave (by decide) "r" roomLeave (by decide)).1 "B" rfl,
   (c1_amended [] trLeave (by decide) "r" roomLeave (by decide)).2 (by decide)⟩

/-! ## C2 -/

/-- The room stored under "r" after the C2 failing trace. -/
def c2Room : RoomState :=
  { song := none, state := "stopped", time := 0, last_update := 2,
    users := ["B"], host_sid := some "A", host_username := some "u",
    password := none, is_locked := false }

/-- C2 (code bug): evaluating `disconnect` at the failing input "A creates
r (host), B joins, A disconnects" shows A is removed from the member set —
the cascade half of the claim — but `host_sid` still names the departed A:
no new host is assigned from the remaining members, unlike `leave_room`. -/
theorem c2_disconnect_no_reassign :
    lookupA (run []
      [(Op.createRoom "A" ⟨some "u", some "r", none⟩, 0),
       (Op.joinRoom "B" ⟨some "v", some "r", none⟩, 1),
       (Op.disconnect "A", 2)]).rooms "r" = some c2Room ∧
    "A" ∉ c2Room.users ∧ c2Room.users = ["B"] ∧
    c2Room.host_sid = some "A" ∧ c2Room.host_sid ≠ some "B" := by decide

/-! ## C3 -/

/-- The room stored under "r" after the host issues the unknown action
"jump" at time 1: the command is rejected, yet `last_update` moved to 1. -/
def c3Room : RoomState :=
  { song := none, state := "stopped", time := 0, last_update := 1,
    users := ["A"], host_sid := some "A", host_username := some "u",
    password := none, is_locked := false }

/-- C3 counterexample: before the rejected command `last_update` is 0,
afterwards it is 1 — the room state is not fully unchanged, because the
handler stamps `last_update` before validating the action. -/
theorem c3_counterexample :
    lookupA (run [] trA).rooms "r" = some roomA ∧
    lookupA (run []
      [(Op.createRoom "A" ⟨some "u", some "r", none⟩, 0),
       (Op.control "A" ⟨some "r", some "jump", none, none⟩, 1)]).rooms "r" =
      some c3Room ∧
    roomA.last_update ≠ c3Room.last_update := by decide

/-- C3 (amended): a rejected control command leaves song, playback state,
position, members, host and password unchanged and reports the error only
to the issuing connection; a missing (or empty) action is rejected with the
room fully untouched, but an unknown action or an invalid `load` song is
rejected only after `last_update` has been set to the current time. -/
theorem c3_amended (songs : List String) (st : ServerState)
    (sid room : String) (rs : RoomState) (d : ControlData) (now : Rat)
    (hroom : d.room = some room) (hne : room ≠ "")
    (hl : lookupA st.rooms room = some rs) (hhost : rs.host_sid = some sid) :
    (d.action = none →
       control songs st sid d now = (st, [errTo sid "Missing action"])) ∧
    (d.action = some "" →
       control songs st sid d now = (st, [errTo sid "Missing action"])) ∧
    (∀ a msg, d.action = some a → a ≠ "" →
       apply_action songs a d.song (time_value d.time)
           { rs with last_update := now } = Except.error msg →
       control songs st sid d now =
         ({ st with
             rooms := updA st.rooms room (fun _ => { rs with last_update := now }) },
          [errTo sid msg])) ∧
    (∀ a, a ≠ "load" → a ≠ "play" → a ≠ "pause" → a ≠ "seek" → a ≠ "stop" →
       apply_action songs a d.song (time_value d.time)
           { rs with last_update := now } = Except.error "Invalid action") ∧
    ((d.song.getD "" = "" ∨ d.song.getD "" ∉ songs) →
       apply_action songs "load" d.song (time_value d.time)
           { rs with last_update := now } = Except.error "Invalid song") := by
  refine ⟨?_, ?_, ?_, ?_, ?_⟩
  · intro ha
    simp [control, hroom, hne, hl, hhost, ha]
  · intro ha
    simp [control, hroom, hne, hl, hhost, ha]
  · intro a msg ha hane herr
    simp only [control, hroom, ha, if_neg hne, hl, if_pos hhost, if_neg hane]
    rw [herr]
  · intro a h1 h2 h3 h4 h5
    simp [apply_action, h1, h2, h3, h4, h5]
  · intro hbad
    have : ¬(d.song.getD "" ≠ "" ∧ d.song.getD "" ∈ songs) := by
      rcases hbad with h | h
      · exact fun hc => hc.1 h
      · exact fun hc => h hc.2
    simp [apply_action, this]

theorem c3_witness :
    control [] stA "A" ⟨some "r", some "jump", none, none⟩ 1 =
      ({ stA with
          rooms := updA stA.rooms "r" (fun _ => { roomA with last_update := 1 }) },
       [errTo "A" "Invalid action"]) :=
  (c3_amended [] stA "A" "r" roomA ⟨some "r", some "jump", none, none⟩ 1
      rfl (by decide) (by decide) rfl).2.2.1 "jump" "Invalid action" rfl
    (by decide) rfl

/-! ## C6 -/

/-- C6: non-host control is a no-op — any control event whose issuer is not
the room's current host returns the whole server state unchanged and emits
exactly one authorization error to the issuing connection. -/
theorem c6_nonhost_control_noop (songs : List String) (st : ServerState)
    (sid room : String) (rs : RoomState) (d : ControlData) (now : Rat)
    (hroom : d.room = some room) (hne : room ≠ "")
    (hl : lookupA st.rooms room = some rs) (hhost : rs.host_sid ≠ some sid) :
    control songs st sid d now =
      (st, [errTo sid "Only the host can control playback"]) := by
  simp only [control, hroom, if_neg hne, hl, if_neg hhost]

theorem c6_witness :
    control [] stA "B" ⟨some "r", some "play", none, none⟩ 7 =
      (stA, [errTo "B" "Only the host can control playback"]) :=
  c6_nonhost_control_noop [] stA "B" "r" roomA
    ⟨some "r", some "play", none, none⟩ 7 rfl (by decide) (by decide) (by decide)

/-! ## C7 -/

/-- A 101-character password, one character longer than the 100-character
cap applied by `create_room`. -/
def pw101 : String := String.mk (List.replicate 101 'a')

/-- The stored form of `pw101`: its first 100 characters. -/
def pw100 : String := String.mk (List.replicate 100 'a')

/-- The room stored under "r" after A creates it with password `pw101`:
the password is truncated to `pw100` at creation. -/
def c7Room : RoomState :=
  { song := none, state := "stopped", time := 0, last_update := 0,
    users := ["A"], host_sid := some "A", host_username := some "u",
    password := some pw100, is_locked := true }

/-- C7 counterexample: the creation password is truncated to 100
characters, but `join_room` does not truncate the supplied password, so a
join that supplies the very password used at creation is rejected with
`join_error` instead of succeeding. -/
theorem c7_counterexample :
    lookupA (run []
      [(Op.createRoom "A" ⟨some "u", some "r", some pw101⟩, 0)]).rooms "r" =
      some c7Room ∧
    pw101 ≠ pw100 ∧
    ((join_room (run [] [(Op.createRoom "A" ⟨some "u", some "r", some pw101⟩, 0)])
        "B" ⟨some "v", some "r", some pw101⟩ 1).2.map Emit.event) =
      ["join_error"] ∧
    (join_room (run [] [(Op.createRoom "A" ⟨some "u", some "r", some pw101⟩, 0)])
        "B" ⟨some "v", some "r", some pw101⟩ 1).1 =
      run [] [(Op.createRoom "A" ⟨some "u", some "r", some pw101⟩, 0)] := by
  decide

/-- C7 (amended): for a locked room, `join_room` succeeds exactly when the
stripped supplied password equals the stored password by exact string
match, and fails with an authorization error (`join_error` /
`invalid_password`) otherwise.  The 100-character truncation is applied
only by `create_room`; `join_room` never truncates, so an over-long
creation password can be matched only by supplying its truncated
100-character prefix, not the original. -/
theorem c7_password_check (st : ServerState) (sid : String) (d : JoinData)
    (room : String) (rs : RoomState) (pw : String) (now : Rat)
    (heff : eff_room "default" d.room = room)
    (hpw : d.password = some pw)
    (hl : lookupA st.rooms room = some rs)
    (hlock : rs.is_locked = true) :
    (rs.password ≠ some (pyStrip pw) →
       join_room st sid d now =
         (st, [{ target := Target.toSid sid
                 event := "join_error"
                 payload := Value.obj
                   [("message", Value.str "Invalid password"),
                    ("code", Value.str "invalid_password")] }])) ∧
    (rs.password = some (pyStrip pw) →
       ∃ rs2, lookupA (join_room st sid d now).1.rooms room = some rs2 ∧
         sid ∈ rs2.users) := by
  constructor
  · intro hbad
    simp only [join_room, heff, hpw, hl, Option.getD_some]
    rw [if_pos ⟨hlock, hbad⟩]
  · intro hgood
    have hcond : ¬(rs.is_locked = true ∧ rs.password ≠ some (pyStrip pw)) := by
      intro hc
      exact hc.2 hgood
    simp only [join_room, heff, hpw, hl, Option.getD_some]
    rw [if_neg hcond]
    dsimp only
    rw [lookupA_updA_self, hl]
    by_cases hh : rs.host_sid = none
    · rw [if_pos hh]
      exact ⟨_, rfl, mem_addUser.2 (Or.inl rfl)⟩
    · rw [if_neg hh]
      exact ⟨_, rfl, mem_addUser.2 (Or.inl rfl)⟩

/-- The state after A creates locked room "r" with password "abc". -/
def stLock : ServerState :=
  run [] [(Op.createRoom "A" ⟨some "u", some "r", some "abc"⟩, 0)]

/-- The locked room stored under "r" in `stLock`. -/
def roomLock : RoomState :=
  { song := none, state := "stopped", time := 0, last_update := 0,
    users := ["A"], host_sid := some "A", host_username := some "u",
    password := some "abc", is_locked := true }

theorem c7_witness :
    ∃ rs2, lookupA (join_room stLock "B" ⟨some "v", some "r", some "abc"⟩
        1).1.rooms "r" = some rs2 ∧ "B" ∈ rs2.users :=
  (c7_password_check stLock "B" ⟨some "v", some "r", some "abc"⟩ "r" roomLock
      "abc" 1 (by decide) rfl (by decide) rfl).2 rfl

/-! ## C8 -/

/-- C8: password confidentiality of outputs — the room summary
(`rooms_update` broadcasts and the `/rooms` endpoint) and the
`room_state` / `room_created` payload are independent of the stored
password (only the boolean lock flag is read), carry no "password" key, and
the summary depends on the member set only through its size, so it never
exposes member connection identifiers. -/
theorem c8_password_confidentiality :
    (∀ (name : String) (rs : RoomState) (pw : Option String),
       room_summary name { rs with password := pw } = room_summary name rs) ∧
    (∀ (name : String) (rs : RoomState) (pw : Option String) (b : Bool),
       room_data name { rs with password := pw } b = room_data name rs b) ∧
    (∀ (name : String) (rs : RoomState),
       "password" ∉ (room_summary name rs).map Prod.fst) ∧
    (∀ (name : String) (rs : RoomState) (b : Bool),
       "password" ∉ (room_data name rs b).map Prod.fst) ∧
    (∀ (name : String) (rs : RoomState) (us : List String),
       us.length = rs.users.length →
       room_summary name { rs with users := us } = room_summary name rs ∧
       active_rooms [(name, { rs with users := us })] =
         active_rooms [(name, rs)]) := by
  refine ⟨?_, ?_, ?_, ?_, ?_⟩
  · intro name rs pw
    simp [room_summary]
  · intro name rs pw b
    simp [room_data]
  · intro name rs
    simp [room_summary]
  · intro name rs b
    simp [room_data]
  · intro name rs us h
    have hemp : us.isEmpty = rs.users.isEmpty := by
      rcases us with _ | ⟨x, xs⟩ <;> rcases hu : rs.users with _ | ⟨y, ys⟩ <;>
        simp_all
    constructor
    · simp [room_summary, h]
    · cases hb : rs.users.isEmpty with
      | false => simp [active_rooms, room_summary, List.filter_cons, hemp, hb, h]
      | true => simp [active_rooms, List.filter_cons, hemp, hb]

theorem c8_witness :
    room_summary "r" { roomA with password := some "secret" } =
      room_summary "r" roomA ∧
    room_summary "r" { roomA with users := ["Z"] } = room_summary "r" roomA ∧
    "password" ∉ (room_summary "r" roomA).map Prod.fst ∧
    "password" ∉ (room_data "r" roomA true).map Prod.fst :=
  ⟨c8_password_confidentiality.1 "r" roomA (some "secret"),
   (c8_password_confidentiality.2.2.2.2 "r" roomA ["Z"] (by decide)).1,
   c8_password_confidentiality.2.2.1 "r" roomA,
   c8_password_confidentiality.2.2.2.1 "r" roomA true⟩

/-! ## C9 -/

/-- C9: frame property of control — for a control command issued by the
host of an existing room with a recognised action (and a valid catalog song
when the action is `load`), the sessions map is unchanged, the room keeps
its member set, host sid, host username, password and lock flag (only song,
state, time and `last_update` may change), and every other room is
untouched. -/
theorem c9_control_frame (songs : List String) (st : ServerState)
    (sid room a : String) (rs : RoomState) (d : ControlData) (now : Rat)
    (hroom : d.room = some room) (hne : room ≠ "")
    (hl : lookupA st.rooms room = some rs) (hhost : rs.host_sid = some sid)
    (ha : d.action = some a)
    (hvalid : a = "load" ∨ a = "play" ∨ a = "pause" ∨ a = "seek" ∨ a = "stop")
    (hload : a = "load" → d.song.getD "" ≠ "" ∧ d.song.getD "" ∈ songs) :
    (control songs st sid d now).1.sessions = st.sessions ∧
    (∃ rs2, lookupA (control songs st sid d now).1.rooms room = some rs2 ∧
       rs2.users = rs.users ∧ rs2.host_sid = rs.host_sid ∧
       rs2.host_username = rs.host_username ∧ rs2.password = rs.password ∧
       rs2.is_locked = rs.is_locked) ∧
    (∀ other, other ≠ room →
       lookupA (control songs st sid d now).1.rooms other =
         lookupA st.rooms other) := by
  obtain ⟨hsess, hsh⟩ := control_shape songs st sid d now
  refine ⟨hsess, ?_, ?_⟩
  · rcases hsh with h | ⟨room0, rs0, rs2, hr0, hl0, he, hu, hh, hhu, hpw, hlk, _⟩
    · exact ⟨rs, by rw [h, hl], rfl, rfl, rfl, rfl, rfl⟩
    · obtain rfl : room0 = room := by
        rw [hroom] at hr0
        exact (Option.some.inj hr0).symm
      obtain rfl : rs0 = rs := by
        rw [hl0] at hl
        exact Option.some.inj hl
      refine ⟨rs2, ?_, hu, hh, hhu, hpw, hlk⟩
      rw [he, lookupA_updA_self, hl0]
      rfl
  · intro other hother
    rcases hsh with h | ⟨room0, rs0, rs2, hr0, hl0, he, _⟩
    · rw [h]
    · obtain rfl : room0 = room := by
        rw [hroom] at hr0
        exact (Option.some.inj hr0).symm
      rw [he, lookupA_updA_ne _ _ _ _ hother]

theorem c9_witness :
    (control [] stA "A" ⟨some "r", some "pause", none, some 2⟩ 9).1.sessions =
      stA.sessions ∧
    (∃ rs2, lookupA (control [] stA "A" ⟨some "r", some "pause", none,
        some 2⟩ 9).1.rooms "r" = some rs2 ∧
       rs2.users = roomA.users ∧ rs2.host_sid = roomA.host_sid ∧
       rs2.host_username = roomA.host_username ∧
       rs2.password = roomA.password ∧ rs2.is_locked = roomA.is_locked) ∧
    (∀ other, other ≠ "r" →
       lookupA (control [] stA "A" ⟨some "r", some "pause", none,
           some 2⟩ 9).1.rooms other = lookupA stA.rooms other) :=
  c9_control_frame [] stA "A" "r" "pause" roomA
    ⟨some "r", some "pause", none, some 2⟩ 9 rfl (by decide) (by decide) rfl
    rfl (Or.inr (Or.inr (Or.inl rfl))) (fun h => absurd h (by decide))

/-! ## C10 -/

/-- C10: defaulting of missing name fields — a missing or whitespace-only
username becomes "anonymous"; a missing or whitespace-only room name
becomes "default" for `join_room` and "new_room" for `create_room`; and a
`join_room` / `create_room` event with no room field behaves exactly like
one naming "default" / "new_room", so these events never fail for a
missing name. -/
theorem c10_name_defaults :
    (eff_username none = "anonymous") ∧
    (∀ s : String, pyStrip s = "" → eff_username (some s) = "anonymous") ∧
    (eff_room "default" none = "default") ∧
    (eff_room "new_room" none = "new_room") ∧
    (∀ s : String, pyStrip s = "" →
       eff_room "default" (some s) = "default" ∧
       eff_room "new_room" (some s) = "new_room") ∧
    (∀ (st : ServerState) (sid : String) (u p : Option String) (now : Rat),
       join_room st sid ⟨u, none, p⟩ now =
         join_room st sid ⟨u, some "default", p⟩ now) ∧
    (∀ (st : ServerState) (sid : String) (u p : Option String) (now : Rat),
       create_room st sid ⟨u, none, p⟩ now =
         create_room st sid ⟨u, some "new_room", p⟩ now) := by
  refine ⟨by decide, ?_, by decide, by decide, ?_, ?_, ?_⟩
  · intro s h
    simp [eff_username, h]
    decide
  · intro s h
    constructor
    · simp [eff_room, h]
      decide
    · simp [eff_room, h]
      decide
  · intro st sid u p now
    rfl
  · intro st sid u p now
    rfl

theorem c10_witness :
    eff_username (some "   ") = "anonymous" ∧
    eff_room "default" (some " ") = "default" ∧
    eff_room "new_room" (some " ") = "new_room" ∧
    join_room stA "B" ⟨some "v", none, none⟩ 4 =
      join_room stA "B" ⟨some "v", some "default", none⟩ 4 :=
  ⟨c10_name_defaults.2.1 "   " (by decide),
   (c10_name_defaults.2.2.2.2.1 " " (by decide)).1,
   (c10_name_defaults.2.2.2.2.1 " " (by decide)).2,
   c10_name_defaults.2.2.2.2.2.1 stA "B" (some "v") none 4⟩

end MusicServer
